import Mathlib

/-!
# Verification of the cev-rag retrieval-and-orchestration engine

A shallow embedding, in Lean 4, of the core of the `cev-rag` repository:
the legacy retrieval path (`config.py`, `rag_service.py`, `chat_with_tools.py`)
and the clean-architecture path (`src/adapters/external/openai_tools.py`,
`src/adapters/repositories/milvus_vector_db.py`,
`src/infrastructure/services.py`).  External collaborators (the OpenAI
embedding/completion providers and the Milvus vector store) are modelled as
oracles passed explicitly to each embedded function; `print` diagnostics are
modelled as boolean event flags where a claim refers to them; Python
exceptions are modelled with `Except`.

Definitions mirror the Python sources; theorems at the end of the file settle
the specification claims against them.
-/

namespace CevRag

/-! ## config.py -/

/-- `config.EMBEDDING_DIMENSION` (config.py line 16). -/
def EMBEDDING_DIMENSION : Nat := 1536

/-- `config.TOP_K` (config.py line 33). -/
def TOP_K : Nat := 5

/-- `config.MILVUS_DATABASE` (config.py line 21). -/
def MILVUS_DATABASE : String := "colombia_data_qaps"

/-- `config.ABSTRACT_COLLECTION` (config.py line 22). -/
def ABSTRACT_COLLECTION : String := "source_abstract"

/-- `config.ALTERNATIVE_COLLECTION_NAMES` (config.py lines 26-30). -/
def ALTERNATIVE_COLLECTION_NAMES : List String :=
  [ "source_abstract",
    "colombia_data_qaps.source_abstract",
    MILVUS_DATABASE ++ "." ++ ABSTRACT_COLLECTION,
    "default_" ++ ABSTRACT_COLLECTION ]

/-! ## Python string primitives

Lean's byte-position-based `String` functions (`trim`, `toLower`,
`startsWith`, `replace`) do not reduce inside the kernel, so the Python
string operations used by the sources are modelled directly over the
character list of the string. -/

/-- Python `str.strip()`: remove leading and trailing whitespace. -/
def pyStrip (s : String) : String :=
  String.mk (((s.data.dropWhile Char.isWhitespace).reverse.dropWhile
    Char.isWhitespace).reverse)

/-- Python `str.lower()` for the ASCII identifiers the sources compare. -/
def pyLower (s : String) : String := String.mk (s.data.map Char.toLower)

/-- Python `s.startswith(pat)`. -/
def pyStartsWith (s pat : String) : Bool := pat.data.isPrefixOf s.data

/-- `text.replace("\n", " ")`: the single-character replacement performed
before embedding. -/
def replaceNewlines (s : String) : String :=
  String.mk (s.data.map (fun c => if c = Char.ofNat 10 then Char.ofNat 32 else c))

/-! ## rag_service.get_embedding

The OpenAI embedding call is modelled as an oracle
`provider : String → Except String (List Float)`: on `.ok e` the API returned
the embedding `e`, on `.error msg` it raised.  `get_embedding` itself never
raises: its `except` branch substitutes an all-zero vector of the configured
dimension (rag_service.py lines 120-153). -/

/-- The text cleaning performed by `get_embedding` before calling the
provider: an empty text becomes `"Empty query"`, then newlines are replaced by
spaces and the result is stripped. -/
def cleanEmbeddingText (text : String) : String :=
  let text := if text.isEmpty then "Empty query" else text
  pyStrip (replaceNewlines text)

/-- `rag_service.get_embedding` (rag_service.py lines 120-153). -/
def get_embedding (text : String)
    (provider : String → Except String (List Float)) : List Float :=
  match provider (cleanEmbeddingText text) with
  | .ok embedding => embedding
  | .error _ => List.replicate EMBEDDING_DIMENSION 0.0

/-! ## rag_service.get_documents_from_query

A resolved Milvus collection is modelled by its name, entity count, schema
field names and the declared dimension of its `embedding` field (`none` when
the schema has no `embedding` field).  A raw search hit carries the entity
dictionary (the output fields that can occur in the `source_abstract`
schema, each `Option` because `.get` defaults are applied in the source) and
a similarity score.  The backend search call is an oracle
`searchFn : List Float → Nat → List Hit`. -/

/-- The entity dictionary of a raw Milvus hit (`hit.entity.to_dict()`),
restricted to the fields of the `source_abstract` schema that the source
projects. -/
structure HitEntity where
  text : Option String := none
  title : Option String := none
  type : Option String := none
  link : Option String := none
  source_id : Option String := none
  page : Option Int := none
deriving Repr, DecidableEq

/-- A raw search hit. -/
structure Hit where
  entity : HitEntity
  score : Float
deriving Repr

/-- A resolved Milvus collection handle, as consumed by
`get_documents_from_query`. -/
structure LegacyCollection where
  name : String
  numEntities : Nat
  fieldNames : List String
  /-- `embedding_field.dim` when the schema has an `embedding` field. -/
  embeddingDim : Option Nat
deriving Repr

/-- The flat metadata map structured by `get_documents_from_query`
(rag_service.py lines 363-369); its fixed keys are modelled as fields.
`page` keeps the Python `doc_dict.get('page', 0)` default. -/
structure LegacyMeta where
  source_id : String
  link : String
  page : Int
  title : String
  type : String
deriving Repr, DecidableEq

/-- A processed document as appended by `get_documents_from_query`
(rag_service.py lines 387-393). -/
structure LegacyDoc where
  content : String
  metadata : LegacyMeta
  score : Float
  original_fields : HitEntity
deriving Repr

/-- Dimension reconciliation of the query vector
(rag_service.py lines 288-303): when the collection schema declares an
embedding dimension and the query vector's length differs, the vector is
truncated (longer) or zero-padded (shorter) to exactly that dimension; the
accompanying `WARNING!` print is modelled as the returned `Bool` event flag. -/
def reconcileQueryVec (queryVec : List Float) (collectionVectorDim : Option Nat) :
    List Float × Bool :=
  match collectionVectorDim with
  | none => (queryVec, false)
  | some dim =>
      if queryVec.length ≠ dim then
        if queryVec.length > dim then
          (queryVec.take dim, true)
        else
          (queryVec ++ List.replicate (dim - queryVec.length) 0.0, true)
      else (queryVec, false)

/-- The output-field projection of `get_documents_from_query`
(rag_service.py lines 308-317). -/
def searchOutputFields (fieldNames : List String) : List String :=
  let expected_fields := ["id", "text", "title", "type", "link", "source_id", "page"]
  let output_fields :=
    expected_fields.filter (fun f => fieldNames.contains f && f ≠ "id")
  if output_fields.isEmpty then
    fieldNames.filter (fun f => f ≠ "embedding")
  else output_fields

/-- Per-hit document construction (rag_service.py lines 345-393): content is
the `text` field, falling back to a title-derived placeholder and finally a
fixed "no content" sentinel; metadata is the structured flat map; the raw
entity dictionary is retained as `original_fields`. -/
def hitToDocument (hit : Hit) : LegacyDoc :=
  let doc_dict := hit.entity
  let content := doc_dict.text.getD ""
  let metadata : LegacyMeta :=
    { source_id := doc_dict.source_id.getD ""
      link := doc_dict.link.getD ""
      page := doc_dict.page.getD 0
      title := doc_dict.title.getD ""
      type := doc_dict.type.getD "" }
  let content :=
    if content.isEmpty ∧ ¬(doc_dict.title.getD "").isEmpty then
      "Document title: " ++ doc_dict.title.getD ""
    else content
  let content :=
    if content.isEmpty then "Could not extract content from this document."
    else content
  { content := content
    metadata := metadata
    score := hit.score
    original_fields := doc_dict }

/-- The successful outcome of `get_documents_from_query`, instrumented with
the reconciled vector actually passed to `collection.search` and the
dimension-mismatch event flag. -/
structure SearchTrace where
  reconciledVec : List Float
  dimWarned : Bool
  outputFields : List String
  documents : List LegacyDoc
deriving Repr

/-- `rag_service.get_documents_from_query` (rag_service.py lines 254-395).
The backend similarity search is the oracle `searchFn`; it is only consulted
after the empty-collection pre-check succeeds (lines 266-269 raise first). -/
def get_documents_from_query (queryVec : List Float) (collection : LegacyCollection)
    (searchFn : List Float → Nat → List Hit) (topK : Nat := TOP_K) :
    Except String SearchTrace :=
  if collection.numEntities = 0 then
    .error ("The collection " ++ collection.name ++
      " is empty. There are no documents to search for. Make sure the data has been loaded correctly into the collection.")
  else
    let (query_vec, warned) := reconcileQueryVec queryVec collection.embeddingDim
    let output_fields := searchOutputFields collection.fieldNames
    let results := searchFn query_vec topK
    .ok { reconciledVec := query_vec
          dimWarned := warned
          outputFields := output_fields
          documents := results.map hitToDocument }

/-! ## MilvusVectorDatabase._get_collection

The vector store is modelled by the list of existing collection names
(`utility.list_collections()`), an entity count per name and the declared
dimension of each schema's `embedding` field (`none` when the schema has no
such field).  `_get_collection` (milvus_vector_db.py lines 53-85) walks the
candidate names in order, reads the schema dimension of every existing
candidate into `_expected_dimension`, and returns the first candidate that
exists and has a non-zero entity count; when none qualifies it raises a
`ValueError` carrying the whole candidate list. -/

/-- The observable state of the Milvus store used by collection resolution. -/
structure MilvusStore where
  collections : List String
  entityCount : String → Nat
  embeddingDim : String → Option Nat

/-- The resolver's failure: `ValueError(f"No valid collection found among:
{candidates}")`, carrying every attempted name. -/
inductive ResolveError where
  | noValidCollection (attempted : List String)
deriving Repr, DecidableEq

/-- The candidate loop of `_get_collection` (milvus_vector_db.py lines
62-83).  `expectedDim` threads the `_expected_dimension` attribute, which is
(re)assigned for every existing candidate whose schema has an `embedding`
field. -/
def getCollectionLoop (store : MilvusStore) (candidates : List String) :
    List String → Option Nat → Except ResolveError (String × Option Nat)
  | [], _ => .error (.noValidCollection candidates)
  | candidate :: rest, expectedDim =>
      if store.collections.contains candidate then
        let expectedDim :=
          match store.embeddingDim candidate with
          | some d => some d
          | none => expectedDim
        if store.entityCount candidate > 0 then .ok (candidate, expectedDim)
        else getCollectionLoop store candidates rest expectedDim
      else getCollectionLoop store candidates rest expectedDim

/-- `MilvusVectorDatabase._get_collection` (milvus_vector_db.py lines 53-85):
candidates are the primary collection name followed by the configured
alternative names. -/
def get_collection (collectionName : String) (alternativeNames : List String)
    (store : MilvusStore) : Except ResolveError (String × Option Nat) :=
  let candidates := collectionName :: alternativeNames
  getCollectionLoop store candidates candidates none

/-- The alternative collection names configured for the clean-architecture
path (src/infrastructure/config.py lines 121-126); the namespace-qualified
primary name is among them. -/
def cleanAlternativeNames : List String :=
  [ "source_abstract",
    "colombia_data_qaps.source_abstract",
    MILVUS_DATABASE ++ "." ++ ABSTRACT_COLLECTION,
    "default_" ++ ABSTRACT_COLLECTION ]

/-! ## chat_with_tools.get_rag_context

The retrieval step behind the `get_relevant_information` tool: embedding,
legacy collection resolution (`get_abstract_collection`, modelled by its
outcome `resolver` since it acts on the module-level Milvus connection),
similarity search, then formatting.  Its `except` clause absorbs every
failure into an error-message context with no documents
(chat_with_tools.py lines 83-88). -/

/-- A `documents_metadata` entry built by `get_rag_context`
(chat_with_tools.py lines 66-73). -/
structure DocMeta where
  title : String
  page : String
  source_id : String
  metadata : LegacyMeta
  original_fields : HitEntity
  score : Float
deriving Repr

/-- The dictionary returned by `get_rag_context`. -/
structure RagResult where
  context : String
  documents : List DocMeta
deriving Repr

/-- Python string truthiness chain `a or b` for strings. -/
def pyOrStr (a b : String) : String := if a.isEmpty then b else a

/-- `metadata.get("title") or original.get("title") or "Untitled document"`
(chat_with_tools.py line 51). -/
def sourceTitleOf (doc : LegacyDoc) : String :=
  pyOrStr doc.metadata.title
    (pyOrStr (doc.original_fields.title.getD "") "Untitled document")

/-- `metadata.get("page") or original.get("page") or ""`
(chat_with_tools.py line 53), rendered as the string it is later displayed
and stored as; a `0` page is falsy in Python and yields the empty string. -/
def pageNumberOf (doc : LegacyDoc) : String :=
  if doc.metadata.page ≠ 0 then toString doc.metadata.page
  else
    match doc.original_fields.page with
    | some n => if n ≠ 0 then toString n else ""
    | none => ""

/-- `metadata.get("source_id") or original.get("source_id") or ""`
(chat_with_tools.py line 54). -/
def sourceIdOf (doc : LegacyDoc) : String :=
  pyOrStr doc.metadata.source_id (doc.original_fields.source_id.getD "")

/-- One formatted context piece (chat_with_tools.py lines 56-61). -/
def formatPiece (doc : LegacyDoc) : String :=
  let source_title := sourceTitleOf doc
  let source_url := doc.metadata.link
  let page_number := pageNumberOf doc
  let piece := "Source: " ++ source_title ++ "\n"
  let piece := if ¬source_url.isEmpty then piece ++ "URL: " ++ source_url ++ "\n" else piece
  let piece := if ¬page_number.isEmpty then piece ++ "Page number: " ++ page_number ++ "\n" else piece
  piece ++ "Text: " ++ doc.content

/-- One `documents_metadata` entry (chat_with_tools.py lines 66-73). -/
def docMetaOf (doc : LegacyDoc) : DocMeta :=
  { title := sourceTitleOf doc
    page := pageNumberOf doc
    source_id := sourceIdOf doc
    metadata := doc.metadata
    original_fields := doc.original_fields
    score := doc.score }

/-- `chat_with_tools.get_rag_context` (chat_with_tools.py lines 23-88).
`provider` is the embedding provider, `resolver` the outcome of
`get_abstract_collection()`, `searchFn` the Milvus search backend.  Every
exception raised inside the `try` block is absorbed into a
`"Could not retrieve relevant information due to: ..."` context. -/
def get_rag_context (question : String)
    (provider : String → Except String (List Float))
    (resolver : Except String LegacyCollection)
    (searchFn : List Float → Nat → List Hit) : RagResult :=
  let query_vec := get_embedding question provider
  match resolver with
  | .error e => { context := "Could not retrieve relevant information due to: " ++ e, documents := [] }
  | .ok collection =>
      match get_documents_from_query query_vec collection searchFn with
      | .error e => { context := "Could not retrieve relevant information due to: " ++ e, documents := [] }
      | .ok trace =>
          { context := String.intercalate "\n\n---\n\n" (trace.documents.map formatPiece)
            documents := trace.documents.map docMetaOf }

/-! ## chat_with_tools.generate_answer_with_tools

The conversation orchestrator.  The completion provider is an oracle
`client : List Msg → Bool → Except String CompletionResp` taking the message
history and whether the `get_relevant_information` tool is offered
(`tools=[...]` vs. no `tools` argument).  The orchestrator's outcome is
instrumented with the trace of completion calls actually issued, each
recording the message history passed, whether tools were offered, and the
collected contexts at that point. -/

/-- A tool invocation returned by the model; `question?` is the parsed
`"question"` argument of `json.loads(tool_call.function.arguments)`, `none`
when absent. -/
structure ToolCallReq where
  id : String
  functionName : String
  question? : Option String
deriving Repr, DecidableEq

/-- A completion response: `content` may be null when tool calls are
present. -/
structure CompletionResp where
  content : Option String
  toolCalls : List ToolCallReq
deriving Repr, DecidableEq

/-- A chat-history entry as stored by the caller. -/
structure ChatMessage where
  content : String
  is_bot : Bool
deriving Repr, DecidableEq

/-- A message on the conversation message list. -/
inductive Msg where
  | system (content : String)
  | user (content : String)
  | assistant (content : Option String) (toolCalls : List ToolCallReq)
  | tool (toolCallId : String) (functionName : String) (content : String)
deriving Repr, DecidableEq

/-- A collected context entry `{question, context, documents}`
(chat_with_tools.py lines 203-207). -/
structure CollectedContext where
  question : String
  context : String
  documents : List DocMeta
deriving Repr

/-- The dictionary returned by `generate_answer_with_tools`; `contexts :=
none` models the `"contexts"` key being absent (as in the error returns of
chat_with_tools.py lines 219-223 and 242-246). -/
structure ToolAnswer where
  content : Option String
  is_bot : Bool
  error : Bool
  contexts : Option (List CollectedContext)
deriving Repr

/-- A record of one completion call issued by the orchestrator. -/
structure CompletionCall where
  messages : List Msg
  toolsOffered : Bool
  contextsAtCall : List CollectedContext
deriving Repr

/-- The persona prompt of chat_with_tools.py lines 105-136.  Its literal text
(persona, formatting, citation and ethics rules) is irrelevant to every claim
and is abbreviated here. -/
def SYSTEM_PROMPT : String :=
  "You are Window to Truth, an academic researcher specialized in the Colombian conflict and the Truth Commission."

/-- `chat_history[-5:] if len(chat_history) > 5 else chat_history`
(chat_with_tools.py line 142). -/
def relevantHistory (chat_history : List ChatMessage) : List ChatMessage :=
  if chat_history.length > 5 then chat_history.drop (chat_history.length - 5)
  else chat_history

/-- The seeded message list (chat_with_tools.py lines 138-148): system
prompt, bounded window of prior turns mapped to role labels, then the new
question. -/
def initMessages (question : String) (chat_history : List ChatMessage) : List Msg :=
  Msg.system SYSTEM_PROMPT ::
    (relevantHistory chat_history).map
      (fun m => if m.is_bot then Msg.assistant (some m.content) []
                else Msg.user m.content)
    ++ [Msg.user question]

/-- The mutable state threaded through one turn's tool-call processing. -/
structure LoopState where
  messages : List Msg
  contexts : List CollectedContext

/-- Processing of the tool calls of one model turn (chat_with_tools.py lines
187-215): calls not named `get_relevant_information` are ignored; a missing
or empty `question` argument skips the call (non-fatal); otherwise the RAG
context is fetched, recorded in `collected_contexts` and appended as a
tool-role message keyed by the call id. -/
def processToolCalls (rag : String → RagResult) :
    List ToolCallReq → List Msg → List CollectedContext → LoopState
  | [], messages, contexts => ⟨messages, contexts⟩
  | tc :: rest, messages, contexts =>
      if tc.functionName = "get_relevant_information" then
        match tc.question? with
        | none => processToolCalls rag rest messages contexts
        | some subquestion =>
            if subquestion.isEmpty then processToolCalls rag rest messages contexts
            else
              let ragResult := rag subquestion
              processToolCalls rag rest
                (messages ++ [Msg.tool tc.id "get_relevant_information" ragResult.context])
                (contexts ++ [⟨subquestion, ragResult.context, ragResult.documents⟩])
      else processToolCalls rag rest messages contexts

/-- The conversation loop of `generate_answer_with_tools`
(chat_with_tools.py lines 153-246), indexed by the remaining turns of the
`for _ in range(max_turns)` loop.  At fuel 0 the turn budget is exhausted and
the final completion call is issued with no tools offered; a completion
failure returns the fixed apologetic answer at once (without the
`"contexts"` key); a toolless response is the final answer with the
collected contexts attached. -/
def chatToolsLoop (client : List Msg → Bool → Except String CompletionResp)
    (rag : String → RagResult) :
    Nat → List Msg → List CollectedContext →
    ToolAnswer × List CompletionCall
  | 0, messages, contexts =>
      match client messages false with
      | .error e =>
          ({ content := some ("An error occurred while generating the final response: " ++ e),
             is_bot := true, error := true, contexts := none },
           [⟨messages, false, contexts⟩])
      | .ok resp =>
          ({ content := resp.content, is_bot := true, error := false,
             contexts := some contexts },
           [⟨messages, false, contexts⟩])
  | fuel + 1, messages, contexts =>
      match client messages true with
      | .error e =>
          ({ content := some ("An error occurred while processing your question: " ++ e),
             is_bot := true, error := true, contexts := none },
           [⟨messages, true, contexts⟩])
      | .ok resp =>
          let messagesA := messages ++ [Msg.assistant resp.content resp.toolCalls]
          if resp.toolCalls.isEmpty then
            ({ content := resp.content, is_bot := true, error := false,
               contexts := some contexts },
             [⟨messages, true, contexts⟩])
          else
            let st := processToolCalls rag resp.toolCalls messagesA contexts
            let next := chatToolsLoop client rag fuel st.messages st.contexts
            (next.1, ⟨messages, true, contexts⟩ :: next.2)

/-- `chat_with_tools.generate_answer_with_tools` (chat_with_tools.py lines
90-246), with `max_turns = 3`. -/
def generate_answer_with_tools (question : String) (chat_history : List ChatMessage)
    (client : List Msg → Bool → Except String CompletionResp)
    (rag : String → RagResult) : ToolAnswer × List CompletionCall :=
  chatToolsLoop client rag 3 (initMessages question chat_history) []

/-! ## String helpers shared by the embedded functions

`strContains` models the Python `in` operator on strings, `cutFromList`
models `re.sub(pattern + ".*$", "", s, flags=re.DOTALL)` (removal from the
first occurrence of the pattern to the end of the string). -/

/-- Whether `pat` occurs as a contiguous substring of `hay`. -/
def listContainsSub (pat : List Char) : List Char → Bool
  | [] => pat.isEmpty
  | h :: t => pat.isPrefixOf (h :: t) || listContainsSub pat t

/-- Python `pat in hay` for strings. -/
def strContains (hay pat : String) : Bool := listContainsSub pat.data hay.data

/-- Remove everything from the first occurrence of `pat` (inclusive) to the
end; the list is unchanged when `pat` does not occur. -/
def cutFromList (pat : List Char) : List Char → List Char
  | [] => []
  | h :: t => if pat.isPrefixOf (h :: t) then [] else h :: cutFromList pat t

/-! ## openai_tools._extract_references_from_contexts

The collected contexts consumed here are generic dictionaries, so the
document entries are modelled with optional fields matching the defensive
`.get` reads of the source; `page?` holds the `str()`-rendered page value of
a present `page` key. -/

/-- A document dictionary as read by `_extract_references_from_contexts`
(openai_tools.py lines 403-461). -/
structure RefDoc where
  title? : Option String := none
  page? : Option String := none
  source_id? : Option String := none
  /-- a direct `"link"` key on the dictionary, when present -/
  link? : Option String := none
  metadata : Option (List (String × String)) := none
  original_fields : Option (List (String × String)) := none
deriving Repr, DecidableEq

/-- A collected-context entry of the openai_tools orchestrator
(openai_tools.py lines 275-279). -/
structure ToolContextData where
  question : String
  context : String
  documents : List RefDoc
deriving Repr, DecidableEq

/-- A bibliographic reference (domain entity `Reference`, entities.py lines
45-55; also the dictionaries of openai_tools.py lines 452-461). -/
structure Reference where
  number : Nat
  title : String
  source_id : String
  page : String
  year : String
  publisher : String
  isbn : String
  url : Option String := none
deriving Repr, DecidableEq

/-- Python truthiness of a possibly-absent string value (`None` and `""` are
falsy). -/
def pyFalsyOpt : Option String → Bool
  | none => true
  | some s => s.isEmpty

/-- Python `a or b` over possibly-absent string values. -/
def orFalsy (a b : Option String) : Option String :=
  if pyFalsyOpt a then b else a

/-- `m.get(k)` on a dictionary modelled as an association list. -/
def lookupStr (m : List (String × String)) (k : String) : Option String :=
  (m.find? (fun kv => kv.1 = k)).map (fun kv => kv.2)

/-- The URL resolution chain of `_extract_references_from_contexts`
(openai_tools.py lines 414-446): the direct `link` field, then
`metadata.get("link") or metadata.get("url")`, then the same on
`original_fields`, then the first metadata key whose lowercase form is one of
`link, url, enlace, web, website`. -/
def extractUrl (doc : RefDoc) : Option String :=
  let url : Option String := none
  let url := match doc.link? with | some v => some v | none => url
  let url :=
    if pyFalsyOpt url then
      match doc.metadata with
      | some m => if m.isEmpty then url else orFalsy (lookupStr m "link") (lookupStr m "url")
      | none => url
    else url
  let url :=
    if pyFalsyOpt url then
      match doc.original_fields with
      | some m => if m.isEmpty then url else orFalsy (lookupStr m "link") (lookupStr m "url")
      | none => url
    else url
  if pyFalsyOpt url then
    match doc.metadata with
    | some m =>
        if m.isEmpty then url
        else
          match m.find? (fun kv =>
              ["link", "url", "enlace", "web", "website"].contains (pyLower kv.1)) with
          | some kv => some kv.2
          | none => url
    | none => url
  else url

/-- The reference dictionary appended for one document
(openai_tools.py lines 452-461). -/
def mkToolReference (refNumber : Nat) (doc : RefDoc) : Reference :=
  { number := refNumber
    title := doc.title?.getD "Untitled document"
    source_id := doc.source_id?.getD ""
    page := doc.page?.getD ""
    year := "2022"
    publisher := "CEV"
    isbn := "978-958-53874-3-0"
    url := extractUrl doc }

/-- The inner document loop of `_extract_references_from_contexts`
(openai_tools.py lines 403-466): documents whose `(title, page)` identifier
was already seen are skipped; otherwise a reference is appended and the
counter incremented, and the loop breaks once the counter exceeds 8.
Returns the references appended, the updated seen set and counter. -/
def extractDocsLoop : List RefDoc → List String → Nat →
    List Reference × List String × Nat
  | [], seen, refNumber => ([], seen, refNumber)
  | doc :: rest, seen, refNumber =>
      let page := doc.page?.getD ""
      let title := doc.title?.getD "Untitled document"
      let unique_id := title ++ "_" ++ page
      if seen.contains unique_id then extractDocsLoop rest seen refNumber
      else
        let ref := mkToolReference refNumber doc
        if refNumber + 1 > 8 then ([ref], unique_id :: seen, refNumber + 1)
        else
          let step := extractDocsLoop rest (unique_id :: seen) (refNumber + 1)
          (ref :: step.1, step.2.1, step.2.2)

/-- The outer context loop of `_extract_references_from_contexts`
(openai_tools.py lines 401-469), breaking when the counter exceeds 8. -/
def extractCtxLoop : List ToolContextData → List String → Nat → List Reference
  | [], _, _ => []
  | c :: rest, seen, refNumber =>
      let step := extractDocsLoop c.documents seen refNumber
      if step.2.2 > 8 then step.1
      else step.1 ++ extractCtxLoop rest step.2.1 step.2.2

/-- `openai_tools._extract_references_from_contexts`
(openai_tools.py lines 395-471). -/
def extract_references_from_contexts (collected : List ToolContextData) :
    List Reference :=
  extractCtxLoop collected [] 1

/-! ## openai_tools._format_response_with_sources -/

/-- The digit run collected so far after an opening bracket, or `none`
outside a bracket: the scanning state of `re.findall(r"\[(\d+)\]", content)`
(openai_tools.py line 357). -/
def digitsToNat (ds : List Char) : Nat :=
  ds.foldl (fun n c => n * 10 + (c.toNat - 48)) 0

/-- Left-to-right scan for bracketed-integer citation markers, equivalent to
`re.findall(r"\[(\d+)\]", content)`: a match is an opening bracket, a
non-empty maximal digit run, and a closing bracket. -/
def citationScan : List Char → Option (List Char) → List Nat
  | [], _ => []
  | c :: rest, none =>
      if c = '[' then citationScan rest (some [])
      else citationScan rest none
  | c :: rest, some ds =>
      if c.isDigit then citationScan rest (some (ds ++ [c]))
      else if c = ']' ∧ ds ≠ [] then digitsToNat ds :: citationScan rest none
      else if c = '[' then citationScan rest (some [])
      else citationScan rest none

/-- All citation numbers appearing in `content`, in occurrence order. -/
def findallCitations (content : String) : List Nat :=
  citationScan content.data none

/-- `max(cited_numbers)` for the (non-empty) collection of scanned citation
numbers. -/
def maxCited (cited : List Nat) : Nat := cited.foldl Nat.max 0

/-- Removal of a pre-existing `Sources`/`Fuentes` section
(openai_tools.py lines 344-352): when the word occurs, everything from the
first `"\n\nSources\n"` (resp. `"\n\nFuentes\n"`) to the end is stripped. -/
def stripSourcesSection (content : String) : String :=
  if strContains content "Sources" then
    String.mk (cutFromList ("\n\nSources\n").data content.data)
  else if strContains content "Fuentes" then
    String.mk (cutFromList ("\n\nFuentes\n").data content.data)
  else content

/-- The per-entry template of the rendered Sources section
(openai_tools.py lines 379-390). -/
def sourceLine (i : Nat) (ref : Reference) : String :=
  let line := "\n" ++ toString (i + 1) ++ ". " ++ ref.title ++ ". (" ++
    ref.year ++ "). " ++ ref.publisher ++ "."
  let line := if ¬ref.isbn.isEmpty then line ++ " ISBN " ++ ref.isbn ++ "." else line
  let line := if ¬ref.page.isEmpty then line ++ ", Page " ++ ref.page ++ "." else line
  match ref.url with
  | some u => if ¬u.isEmpty then line ++ " [Ver documento](" ++ u ++ ")" else line
  | none => line

/-- `openai_tools._format_response_with_sources`
(openai_tools.py lines 330-392): with no collected contexts or no extracted
references the answer is returned untouched; otherwise any pre-existing
Sources section is stripped, the citation markers of the (stripped) answer
are scanned, and the Sources section covers references `1..max_sources`
where `max_sources` is the highest cited number (or 3 when none is cited)
clamped to the number of available references. -/
def format_response_with_sources (content : String)
    (collected : List ToolContextData) : String × List Reference :=
  if collected.isEmpty then (content, [])
  else
    let references := extract_references_from_contexts collected
    if references.isEmpty then (content, [])
    else
      let content := stripSourcesSection content
      let cited := findallCitations content
      let max_sources :=
        if ¬cited.isEmpty then min (maxCited cited) references.length
        else min 3 references.length
      let filtered_references := references.take max_sources
      let sources_section := "\n\nSources" ++
        String.join ((List.range max_sources).map (fun i =>
          match references.get? i with
          | some ref => sourceLine i ref
          | none => ""))
      (content ++ sources_section, filtered_references)

/-! ## services.DefaultRAGContextBuilder

The clean-architecture context assembler.  A `Document`'s metadata map is
modelled by the three keys the builder reads (`title`, `source_id`, `page`),
each an optional scalar that is either a string or an integer (Python's
heterogeneous dictionary values). -/

/-- A scalar metadata value. -/
inductive MetaVal where
  | s (v : String)
  | i (v : Int)
deriving Repr, DecidableEq

/-- Python truthiness of a scalar metadata value. -/
def MetaVal.truthy : MetaVal → Bool
  | .s v => ¬v.isEmpty
  | .i v => v ≠ 0

/-- Python `str()` / f-string rendering of a scalar metadata value. -/
def MetaVal.str : MetaVal → String
  | .s v => v
  | .i v => toString v

/-- The clean-architecture domain `Document` (entities.py lines 29-35),
with its metadata map restricted to the keys the context builder reads. -/
structure Document where
  content : String
  title? : Option MetaVal := none
  source_id? : Option MetaVal := none
  page? : Option MetaVal := none
  score : Float
deriving Repr

/-- The domain `RAGContext` (entities.py lines 58-63). -/
structure RAGContext where
  documents : List Document
  context_text : String
  references : List Reference
deriving Repr

/-- One context piece of `build_context` (services.py lines 20-38).  The
Python source writes `"\\n"` inside f-strings, so the emitted separators are
the literal two characters backslash-n, reproduced faithfully here. -/
def buildContextPiece (doc : Document) : String :=
  let meta_string :=
    (match doc.title? with
     | some v => if v.truthy then "Title: " ++ v.str ++ "\\n" else ""
     | none => "") ++
    (match doc.source_id? with
     | some v => if v.truthy then "Source: " ++ v.str ++ "\\n" else ""
     | none => "") ++
    (match doc.page? with
     | some v => if v.truthy then "Page: " ++ v.str ++ "\\n" else ""
     | none => "")
  if ¬meta_string.isEmpty then meta_string ++ "\\n" ++ doc.content
  else doc.content

/-- `DefaultRAGContextBuilder._build_reference` (services.py lines 59-82). -/
def build_reference (document : Document) (number : Nat) : Reference :=
  let title := match document.title? with | some v => v.str | none => "Untitled document"
  let source_id := match document.source_id? with | some v => v.str | none => ""
  let source_id :=
    if ¬(pyStartsWith source_id "Tomo") ∧ ¬(strContains (pyLower source_id) "vol") then
      if strContains (pyLower title) "tomo" ∨ strContains (pyLower title) "vol" then title
      else source_id
    else source_id
  let page :=
    match document.page? with
    | some (.i n) => toString n
    | some (.s v) => v
    | none => ""
  { number := number
    title := title
    source_id := source_id
    page := page
    year := "2022"
    publisher := "Colombia. Comisión de la Verdad"
    isbn := "978-958-53874-3-0"
    url := none }

/-- The fixed sentinel substituted for an empty assembled context
(services.py line 49). -/
def NO_RELEVANT_INFORMATION : String :=
  "No relevant information was found for this question in the database."

set_option linter.unusedVariables false in
/-- `DefaultRAGContextBuilder.build_context` (services.py lines 13-57):
pieces with non-whitespace content are joined with the fixed separator;
references are derived from the first 3 documents only; an empty or
whitespace-only join is replaced by the sentinel. -/
def build_context (documents : List Document) (question : String) : RAGContext :=
  let context_pieces :=
    (documents.map buildContextPiece).filter (fun s => ¬(pyStrip s).isEmpty)
  let references :=
    (documents.take 3).mapIdx (fun i doc => build_reference doc (i + 1))
  let context_text := String.intercalate "\\n\\n---\\n\\n" context_pieces
  let context_text :=
    if (pyStrip context_text).isEmpty then NO_RELEVANT_INFORMATION
    else context_text
  { documents := documents
    context_text := context_text
    references := references }

/-! ## MilvusVectorDatabase.search_similar_documents

The clean-architecture sibling of `get_documents_from_query`
(milvus_vector_db.py lines 92-147).  Unlike the legacy path it does not
reconcile a mismatched query vector: it raises a dimension-mismatch
`ValueError` before searching. -/

/-- `MilvusVectorDatabase._extract_content` (milvus_vector_db.py lines
149-162), over the `source_abstract` schema fields: of the candidate
content fields only `text` exists; `title` gives a placeholder, otherwise a
fixed "no content" string. -/
def extract_content (doc_dict : HitEntity) : String :=
  match doc_dict.text with
  | some v => if ¬v.isEmpty then v else extractContentFallback doc_dict
  | none => extractContentFallback doc_dict
where
  extractContentFallback (doc_dict : HitEntity) : String :=
    match doc_dict.title with
    | some t => if ¬t.isEmpty then "Document titled: " ++ t else "No content available"
    | none => "No content available"

/-- `MilvusVectorDatabase.search_similar_documents` (milvus_vector_db.py
lines 92-147): a query vector whose length differs from the collection's
expected dimension is rejected with a `ValueError` before the search;
otherwise the hits are normalized (content via `_extract_content`, metadata
via `_extract_metadata`). -/
def search_similar_documents (expectedDim : Nat) (embedding : List Float)
    (searchFn : List Float → Nat → List Hit) (limit : Nat := 5) :
    Except String (List Document) :=
  if embedding.length ≠ expectedDim then
    .error ("Embedding dimension mismatch: collection expects " ++
      toString expectedDim ++ " dimensions but received " ++
      toString embedding.length ++
      " dimensions. Please check your embedding model configuration.")
  else
    .ok ((searchFn embedding limit).map (fun hit =>
      { content := extract_content hit.entity
        title? := hit.entity.title.map MetaVal.s
        source_id? := hit.entity.source_id.map MetaVal.s
        page? := hit.entity.page.map MetaVal.i
        score := hit.score }))

/-- The clean-architecture adapter revision diverges from the legacy one on
dimension mismatch: it raises instead of reconciling (noted in claim C2's
assessment). -/
lemma search_similar_documents_rejects_mismatch (expectedDim : Nat)
    (embedding : List Float) (searchFn : List Float → Nat → List Hit)
    (h : embedding.length ≠ expectedDim) :
    search_similar_documents expectedDim embedding searchFn =
      .error ("Embedding dimension mismatch: collection expects " ++
        toString expectedDim ++ " dimensions but received " ++
        toString embedding.length ++
        " dimensions. Please check your embedding model configuration.") := by
  rw [search_similar_documents, if_pos h]

/-! # Helper lemmas -/

/-- The `(title, page)` deduplication identifier of a reference, as the
source builds it (`f"{title}_{page}"`, openai_tools.py line 409). -/
def refUid (r : Reference) : String := r.title ++ "_" ++ r.page

lemma take_range' : ∀ (k s n : Nat), (List.range' s n).take k = List.range' s (min k n) := by
  intro k s n
  induction n generalizing s k with
  | zero => simp
  | succ m ih =>
      cases k with
      | zero => simp
      | succ k =>
          rw [List.range'_succ]
          simp only [List.take_succ_cons, ih, Nat.succ_min_succ, List.range'_succ]

/-- The combined invariant of the inner document loop of
`_extract_references_from_contexts`: the appended references are numbered
consecutively from the incoming counter, the counter advances by their
count, the seen set only grows and ends containing their identifiers, no
appended reference was previously seen, identifiers are pairwise distinct,
and the counter never passes 9. -/
lemma extractDocsLoop_spec (docs : List RefDoc) : ∀ (seen : List String) (n : Nat),
    (extractDocsLoop docs seen n).1.map Reference.number =
      List.range' n (extractDocsLoop docs seen n).1.length ∧
    (extractDocsLoop docs seen n).2.2 = n + (extractDocsLoop docs seen n).1.length ∧
    (∀ x, seen.contains x = true → (extractDocsLoop docs seen n).2.1.contains x = true) ∧
    (∀ r ∈ (extractDocsLoop docs seen n).1, seen.contains (refUid r) = false) ∧
    (∀ r ∈ (extractDocsLoop docs seen n).1,
      (extractDocsLoop docs seen n).2.1.contains (refUid r) = true) ∧
    (extractDocsLoop docs seen n).1.Pairwise (fun a b => refUid a ≠ refUid b) ∧
    (n ≤ 8 → (extractDocsLoop docs seen n).2.2 ≤ 9) := by
  induction docs with
  | nil =>
      intro seen n
      refine ⟨by simp [extractDocsLoop], by simp [extractDocsLoop], ?_, ?_, ?_, ?_, ?_⟩ <;>
        simp [extractDocsLoop]
      omega
  | cons doc rest ih =>
      intro seen n
      simp only [extractDocsLoop]
      split
      · exact ih seen n
      · next hdup =>
          rw [Bool.not_eq_true] at hdup
          have huid : refUid (mkToolReference n doc) =
              doc.title?.getD "Untitled document" ++ "_" ++ doc.page?.getD "" := rfl
          split
          · next hbig =>
              dsimp only
              refine ⟨?_, ?_, ?_, ?_, ?_, ?_, ?_⟩
              · simp [mkToolReference]
              · simp
              · intro x hx
                rw [List.contains_cons, hx, Bool.or_true]
              · intro r hr
                have hr : r = mkToolReference n doc := by simpa using hr
                subst hr; rw [huid]; exact hdup
              · intro r hr
                have hr : r = mkToolReference n doc := by simpa using hr
                subst hr
                rw [huid, List.contains_cons]
                simp
              · simp
              · intro hn; omega
          · next hsmall =>
              obtain ⟨ihnum, ihcnt, ihgrow, ihnew, ihmem, ihpw, ihbound⟩ :=
                ih ((doc.title?.getD "Untitled document" ++ "_" ++ doc.page?.getD "") :: seen) (n + 1)
              dsimp only
              refine ⟨?_, ?_, ?_, ?_, ?_, ?_, ?_⟩
              · simp only [List.map_cons, List.length_cons]
                have hnum : (mkToolReference n doc).number = n := rfl
                rw [hnum, List.range'_succ, ihnum]
              · simp only [List.length_cons, ihcnt]; omega
              · intro x hx
                exact ihgrow x (by rw [List.contains_cons, hx, Bool.or_true])
              · intro r hr
                simp only [List.mem_cons] at hr
                rcases hr with hr | hr
                · subst hr; rw [huid]; exact hdup
                · have hx := ihnew r hr
                  rw [List.contains_cons, Bool.or_eq_false_iff] at hx
                  exact hx.2
              · intro r hr
                simp only [List.mem_cons] at hr
                rcases hr with hr | hr
                · subst hr
                  apply ihgrow
                  rw [huid, List.contains_cons]
                  simp
                · exact ihmem r hr
              · refine List.Pairwise.cons ?_ ihpw
                intro r hr heq
                have hx := ihnew r hr
                rw [← heq, huid] at hx
                rw [List.contains_cons] at hx
                simp at hx
              · intro hn
                apply ihbound
                omega

lemma range'_append_one (s k₁ k₂ : Nat) :
    List.range' s k₁ ++ List.range' (s + k₁) k₂ = List.range' s (k₁ + k₂) := by
  have h := List.range'_append s k₁ k₂ 1
  simp [Nat.add_comm] at h
  simp [Nat.add_comm, h]

/-- The outer context loop of `_extract_references_from_contexts` keeps the
inner loop's invariants across contexts. -/
lemma extractCtxLoop_spec (ctxs : List ToolContextData) : ∀ (seen : List String) (n : Nat),
    (extractCtxLoop ctxs seen n).map Reference.number =
      List.range' n (extractCtxLoop ctxs seen n).length ∧
    (∀ r ∈ extractCtxLoop ctxs seen n, seen.contains (refUid r) = false) ∧
    (extractCtxLoop ctxs seen n).Pairwise (fun a b => refUid a ≠ refUid b) ∧
    (n ≤ 8 → n + (extractCtxLoop ctxs seen n).length ≤ 9) := by
  induction ctxs with
  | nil =>
      intro seen n
      refine ⟨by simp [extractCtxLoop], by simp [extractCtxLoop], by simp [extractCtxLoop], ?_⟩
      simp [extractCtxLoop]
      omega
  | cons c rest ih =>
      intro seen n
      obtain ⟨inum, icnt, igrow, inew, imem, ipw, ibound⟩ :=
        extractDocsLoop_spec c.documents seen n
      simp only [extractCtxLoop]
      split
      · next hstop =>
          refine ⟨inum, inew, ipw, ?_⟩
          intro hn
          have hb := ibound hn
          omega
      · next hgo =>
          obtain ⟨jnum, jnew, jpw, jbound⟩ :=
        ih (extractDocsLoop c.documents seen n).2.1 (extractDocsLoop c.documents seen n).2.2
          refine ⟨?_, ?_, ?_, ?_⟩
          · rw [List.map_append, inum, jnum, List.length_append]
            calc List.range' n (extractDocsLoop c.documents seen n).1.length ++
                  List.range' (extractDocsLoop c.documents seen n).2.2
                    (extractCtxLoop rest (extractDocsLoop c.documents seen n).2.1
                      (extractDocsLoop c.documents seen n).2.2).length
                = List.range' n (extractDocsLoop c.documents seen n).1.length ++
                  List.range' (n + (extractDocsLoop c.documents seen n).1.length)
                    (extractCtxLoop rest (extractDocsLoop c.documents seen n).2.1
                      (extractDocsLoop c.documents seen n).2.2).length := by rw [← icnt]
              _ = _ := range'_append_one _ _ _
          · intro r hr
            rcases List.mem_append.mp hr with hr | hr
            · exact inew r hr
            · have hx := jnew r hr
              by_contra hc
              rw [Bool.not_eq_false] at hc
              rw [igrow _ hc] at hx
              simp at hx
          · rw [List.pairwise_append]
            refine ⟨ipw, jpw, ?_⟩
            intro a ha b hb heq
            have hbx := jnew b hb
            rw [← heq] at hbx
            rw [imem a ha] at hbx
            simp at hbx
          · intro hn
            have h1 := ibound hn
            have h2 : (extractDocsLoop c.documents seen n).2.2 ≤ 8 := by omega
            have h3 := jbound h2
            rw [List.length_append]
            omega

/-- Every reference the inner loop appends is built by `mkToolReference`. -/
lemma extractDocsLoop_mem_mk : ∀ (docs : List RefDoc) (seen : List String) (n : Nat)
    (r : Reference), r ∈ (extractDocsLoop docs seen n).1 →
    ∃ k d, r = mkToolReference k d := by
  intro docs
  induction docs with
  | nil => intro seen n r hr; simp [extractDocsLoop] at hr
  | cons doc rest ih =>
      intro seen n r hr
      simp only [extractDocsLoop] at hr
      split at hr
      · exact ih _ _ r hr
      · split at hr
        · have hr : r = mkToolReference n doc := by simpa using hr
          exact ⟨n, doc, hr⟩
        · dsimp only at hr
          rcases List.mem_cons.mp hr with hr | hr
          · exact ⟨n, doc, hr⟩
          · exact ih _ _ r hr

/-- Every reference the extractor returns is built by `mkToolReference`. -/
lemma extractCtxLoop_mem_mk : ∀ (ctxs : List ToolContextData) (seen : List String)
    (n : Nat) (r : Reference), r ∈ extractCtxLoop ctxs seen n →
    ∃ k d, r = mkToolReference k d := by
  intro ctxs
  induction ctxs with
  | nil => intro seen n r hr; simp [extractCtxLoop] at hr
  | cons c rest ih =>
      intro seen n r hr
      simp only [extractCtxLoop] at hr
      split at hr
      · exact extractDocsLoop_mem_mk _ _ _ r hr
      · rcases List.mem_append.mp hr with hr | hr
        · exact extractDocsLoop_mem_mk _ _ _ r hr
        · exact ih _ _ r hr

/-! # Claim theorems -/

/-- Claim C3: for every list of collected contexts, the citation extractor's
reference list contains no two references with the same `(title, page)` pair,
and the references are numbered exactly `1..k` consecutively with no gaps,
where `k` never exceeds 8. -/
theorem claim3_reference_dedup_and_numbering (collected : List ToolContextData) :
    (extract_references_from_contexts collected).Pairwise
      (fun a b => (a.title, a.page) ≠ (b.title, b.page)) ∧
    (extract_references_from_contexts collected).map Reference.number =
      List.range' 1 (extract_references_from_contexts collected).length ∧
    (extract_references_from_contexts collected).length ≤ 8 := by
  unfold extract_references_from_contexts
  obtain ⟨hnum, _, hpw, hbound⟩ := extractCtxLoop_spec collected [] 1
  refine ⟨?_, hnum, ?_⟩
  · refine hpw.imp ?_
    intro a b hab heq
    apply hab
    have h1 : a.title = b.title := congrArg Prod.fst heq
    have h2 : a.page = b.page := congrArg Prod.snd heq
    show a.title ++ "_" ++ a.page = b.title ++ "_" ++ b.page
    rw [h1, h2]
  · have := hbound (by norm_num)
    omega

/-- The concrete context list of the spec's `[1][2][5]` scenario: three
collected documents, hence three available references. -/
def threeDocContexts : List ToolContextData :=
  [ { question := "q", context := "c",
      documents :=
        [ { title? := some "A", page? := some "1" },
          { title? := some "B", page? := some "2" },
          { title? := some "C", page? := some "3" } ] } ]

/-- Claim C4: for every generated answer and collected contexts, the reference
list backing the rendered Sources section is numbered exactly
`1..min(m, k)`, where `k` is the number of available references and `m` is
the highest integer cited as `[n]` in the answer body (after any
pre-existing Sources section is stripped), or `3` when no marker is cited;
in particular markers `[1][2][5]` with 3 available references yield exactly
references 1-3. -/
theorem claim4_sources_section_coverage :
    (∀ (content : String) (collected : List ToolContextData),
      ((format_response_with_sources content collected).2).map Reference.number =
        List.range' 1 (min
          (if (findallCitations (stripSourcesSection content)).isEmpty then 3
           else maxCited (findallCitations (stripSourcesSection content)))
          (extract_references_from_contexts collected).length)) ∧
    ((format_response_with_sources "answer [1][2][5]" threeDocContexts).2).map
      Reference.number = [1, 2, 3] := by
  constructor
  · intro content collected
    obtain ⟨hnum, _, _, _⟩ := extractCtxLoop_spec collected [] 1
    unfold extract_references_from_contexts
    rw [format_response_with_sources]
    unfold extract_references_from_contexts
    split
    · next h =>
        rw [List.isEmpty_iff] at h
        subst h
        simp [extract_references_from_contexts, extractCtxLoop]
    · next h =>
        dsimp only
        split
        · next hrefs =>
            rw [List.isEmpty_iff] at hrefs
            simp [hrefs]
        · next hrefs =>
            dsimp only
            rw [List.map_take, hnum, take_range']
            congr 1
            by_cases hcit : (findallCitations (stripSourcesSection content)).isEmpty = true
            · simp only [hcit, if_true]
              simp
            · simp only [Bool.not_eq_true] at hcit
              simp only [hcit]
              simp
  · rfl

/-- Claim C10: every reference the system produces carries the hardcoded
constants year `"2022"`, ISBN `"978-958-53874-3-0"` and a fixed publisher
string (`"CEV"` in the tool-path extractor, `"Colombia. Comisión de la
Verdad"` in the context builder); only title, source_id, page and url vary
per document. -/
theorem claim10_hardcoded_reference_constants :
    (∀ (collected : List ToolContextData) (r : Reference),
      r ∈ extract_references_from_contexts collected →
      r.year = "2022" ∧ r.isbn = "978-958-53874-3-0" ∧ r.publisher = "CEV") ∧
    (∀ (doc : Document) (n : Nat),
      (build_reference doc n).year = "2022" ∧
      (build_reference doc n).isbn = "978-958-53874-3-0" ∧
      (build_reference doc n).publisher = "Colombia. Comisión de la Verdad") := by
  constructor
  · intro collected r hr
    obtain ⟨k, d, rfl⟩ := extractCtxLoop_mem_mk collected [] 1 r hr
    exact ⟨rfl, rfl, rfl⟩
  · intro doc n
    exact ⟨rfl, rfl, rfl⟩

/-- Witness for C10: the constants on a concrete extracted reference. -/
theorem claim10_witness :
    mkToolReference 1 { title? := some "A", page? := some "1" } ∈
      extract_references_from_contexts threeDocContexts ∧
    (mkToolReference 1 { title? := some "A", page? := some "1" } : Reference).year = "2022" ∧
    (mkToolReference 1 { title? := some "A", page? := some "1" } : Reference).isbn =
      "978-958-53874-3-0" ∧
    (mkToolReference 1 { title? := some "A", page? := some "1" } : Reference).publisher =
      "CEV" := by
  have hmem : mkToolReference 1 { title? := some "A", page? := some "1" } ∈
      extract_references_from_contexts threeDocContexts := by
    show mkToolReference 1 { title? := some "A", page? := some "1" } ∈
      [ mkToolReference 1 { title? := some "A", page? := some "1" },
        mkToolReference 2 { title? := some "B", page? := some "2" },
        mkToolReference 3 { title? := some "C", page? := some "3" } ]
    exact List.mem_cons_self _ _
  exact ⟨hmem, (claim10_hardcoded_reference_constants.1 threeDocContexts _ hmem)⟩

/-- Claim C5: for every document list (including the empty list) the context
assembler returns a non-empty `context_text`: when the joined pieces are
empty or whitespace-only, the fixed "no relevant information" sentinel is
substituted. -/
theorem claim5_context_text_never_empty :
    (∀ (documents : List Document) (question : String),
      (build_context documents question).context_text ≠ "") ∧
    (∀ (documents : List Document) (question : String),
      (pyStrip (String.intercalate "\\n\\n---\\n\\n"
          ((documents.map buildContextPiece).filter
            (fun s => ¬(pyStrip s).isEmpty)))).isEmpty = true →
      (build_context documents question).context_text = NO_RELEVANT_INFORMATION) := by
  constructor
  · intro documents question
    rw [build_context]
    dsimp only
    split
    · next h =>
        intro hc
        simp [NO_RELEVANT_INFORMATION] at hc
    · next h =>
        intro hc
        rw [hc] at h
        exact h (by decide)
  · intro documents question h
    rw [build_context]
    dsimp only
    rw [if_pos h]

/-- Witness for C5: the empty document list joins to the empty string, so
the sentinel is substituted and the returned context is non-empty. -/
theorem claim5_witness :
    (pyStrip (String.intercalate "\\n\\n---\\n\\n"
        ((([] : List Document).map buildContextPiece).filter
          (fun s => ¬(pyStrip s).isEmpty)))).isEmpty = true ∧
    (build_context [] "q").context_text = NO_RELEVANT_INFORMATION ∧
    (build_context [] "q").context_text ≠ "" :=
  ⟨by decide, claim5_context_text_never_empty.2 [] "q" (by decide),
   claim5_context_text_never_empty.1 [] "q"⟩

/-- Claim C7, code bug: on provider failure `get_embedding` does not surface
an `EmbeddingFailed` error to its caller: it silently substitutes the
all-zero vector of the configured dimension (rag_service.py lines 148-153),
which the specification flags as a latent bug and does not adopt. -/
lemma get_embedding_error_zero_fallback (text e : String)
    (provider : String → Except String (List Float))
    (h : provider (cleanEmbeddingText text) = .error e) :
    get_embedding text provider = List.replicate EMBEDDING_DIMENSION 0.0 := by
  rw [get_embedding, h]

/-- Claim C7, evaluated at the failing input: a concrete failing provider
makes `get_embedding` return the 1536-long all-zero vector instead of
surfacing an error. -/
theorem claim7_zero_vector_fallback :
    get_embedding "hello" (fun _ => .error "provider down") =
      List.replicate EMBEDDING_DIMENSION 0.0 ∧
    EMBEDDING_DIMENSION = 1536 :=
  ⟨get_embedding_error_zero_fallback "hello" "provider down"
    (fun _ => .error "provider down") rfl, rfl⟩

/-- The reconciliation cases of `reconcileQueryVec` under a declared
dimension `D` and a mismatched vector. -/
lemma reconcileQueryVec_spec (v : List Float) (D : Nat) (h : v.length ≠ D) :
    (reconcileQueryVec v (some D)).1.length = D ∧
    (D < v.length → (reconcileQueryVec v (some D)).1 = v.take D) ∧
    (v.length < D → (reconcileQueryVec v (some D)).1 =
      v ++ List.replicate (D - v.length) 0.0) ∧
    (reconcileQueryVec v (some D)).2 = true := by
  simp only [reconcileQueryVec]
  rw [if_pos h]
  by_cases hgt : v.length > D
  · rw [if_pos hgt]
    refine ⟨?_, fun _ => rfl, fun hlt => absurd hlt (by omega), rfl⟩
    simp only [List.length_take]
    omega
  · rw [if_neg hgt]
    refine ⟨?_, fun hgt2 => absurd hgt2 (by omega), fun _ => rfl, rfl⟩
    simp only [List.length_append, List.length_replicate]
    omega

/-- The reconciled vector always has the declared dimension. -/
lemma reconcileQueryVec_length (v : List Float) (D : Nat) :
    (reconcileQueryVec v (some D)).1.length = D := by
  by_cases h : v.length = D
  · simp only [reconcileQueryVec]
    rw [if_neg (by omega)]
    exact h
  · exact (reconcileQueryVec_spec v D h).1

/-- The unfolding of `get_documents_from_query` on a non-empty collection:
the reconciled vector is handed to the backend search and the hits are
normalized into documents. -/
lemma get_documents_from_query_ok (v : List Float) (c : LegacyCollection)
    (searchFn : List Float → Nat → List Hit) (h : c.numEntities ≠ 0) :
    get_documents_from_query v c searchFn =
      .ok { reconciledVec := (reconcileQueryVec v c.embeddingDim).1
            dimWarned := (reconcileQueryVec v c.embeddingDim).2
            outputFields := searchOutputFields c.fieldNames
            documents :=
              ((searchFn (reconcileQueryVec v c.embeddingDim).1 TOP_K).map hitToDocument) } := by
  rw [get_documents_from_query, if_neg h]

/-- Claim C2: for every query vector whose length differs from the resolved
collection's declared embedding dimension `D`, the legacy search path
reconciles it to length exactly `D` before searching — the first `D` values
when longer, zero-padding when shorter — raising the diagnostic event in
either case; and whenever the dimension is declared, the vector handed to
the similarity search has exactly length `D`. -/
theorem claim2_dimension_reconciliation :
    (∀ (v : List Float) (D : Nat) (c : LegacyCollection)
        (searchFn : List Float → Nat → List Hit),
      c.embeddingDim = some D → v.length ≠ D → c.numEntities ≠ 0 →
      ∃ t, get_documents_from_query v c searchFn = .ok t ∧
        t.reconciledVec.length = D ∧
        (D < v.length → t.reconciledVec = v.take D) ∧
        (v.length < D → t.reconciledVec = v ++ List.replicate (D - v.length) 0.0) ∧
        t.dimWarned = true ∧
        t.documents = (searchFn t.reconciledVec TOP_K).map hitToDocument) ∧
    (∀ (v : List Float) (D : Nat) (c : LegacyCollection)
        (searchFn : List Float → Nat → List Hit) (t : SearchTrace),
      c.embeddingDim = some D →
      get_documents_from_query v c searchFn = .ok t →
      t.reconciledVec.length = D) := by
  constructor
  · intro v D c searchFn hdim hne hcount
    obtain ⟨hlen, htrunc, hpad, hwarn⟩ := reconcileQueryVec_spec v D hne
    refine ⟨_, get_documents_from_query_ok v c searchFn hcount, ?_, ?_, ?_, ?_, rfl⟩
    · dsimp only; rw [hdim]; exact hlen
    · dsimp only; rw [hdim]; exact htrunc
    · dsimp only; rw [hdim]; exact hpad
    · dsimp only; rw [hdim]; exact hwarn
  · intro v D c searchFn t hdim hok
    by_cases hcount : c.numEntities = 0
    · rw [get_documents_from_query, if_pos hcount] at hok
      exact absurd hok (by simp)
    · rw [get_documents_from_query_ok v c searchFn hcount] at hok
      cases hok
      dsimp only
      rw [hdim]
      exact reconcileQueryVec_length v D

/-- Witness for C2: a 2-long query vector against a declared dimension of 3
is zero-padded to exactly `[1.5, 2.5, 0.0]` with the event raised. -/
theorem claim2_witness :
    ∃ t, get_documents_from_query [1.5, 2.5]
        { name := "source_abstract", numEntities := 7,
          fieldNames := ["id", "embedding", "text", "title"],
          embeddingDim := some 3 }
        (fun _ _ => []) = .ok t ∧
      t.reconciledVec.length = 3 ∧
      (3 < ([1.5, 2.5] : List Float).length → t.reconciledVec = [1.5, 2.5].take 3) ∧
      (([1.5, 2.5] : List Float).length < 3 → t.reconciledVec =
        [1.5, 2.5] ++ List.replicate (3 - ([1.5, 2.5] : List Float).length) 0.0) ∧
      t.dimWarned = true ∧
      t.documents = ((fun (_ : List Float) (_ : Nat) => ([] : List Hit))
        t.reconciledVec TOP_K).map hitToDocument :=
  claim2_dimension_reconciliation.1 [1.5, 2.5] 3
    { name := "source_abstract", numEntities := 7,
      fieldNames := ["id", "embedding", "text", "title"],
      embeddingDim := some 3 }
    (fun _ _ => []) rfl (by decide) (by decide)

/-- Claim C9: a resolved-but-empty collection is rejected with the explicit
empty-collection error before the similarity query is issued — for an empty
collection the outcome is the same error for every backend search function,
which is never consulted; only on a non-empty collection is the search
performed. -/
theorem claim9_empty_collection_precheck :
    (∀ (v : List Float) (c : LegacyCollection)
        (searchFn : List Float → Nat → List Hit),
      c.numEntities = 0 →
      get_documents_from_query v c searchFn =
        .error ("The collection " ++ c.name ++
          " is empty. There are no documents to search for. Make sure the data has been loaded correctly into the collection.")) ∧
    (∀ (v : List Float) (c : LegacyCollection)
        (searchFn : List Float → Nat → List Hit),
      c.numEntities ≠ 0 →
      ∃ t, get_documents_from_query v c searchFn = .ok t ∧
        t.documents = (searchFn t.reconciledVec TOP_K).map hitToDocument) := by
  constructor
  · intro v c searchFn h
    rw [get_documents_from_query, if_pos h]
  · intro v c searchFn h
    exact ⟨_, get_documents_from_query_ok v c searchFn h, rfl⟩

/-- Witness for C9: a concrete empty collection produces the error for a
concrete backend, and a concrete non-empty collection reaches the search. -/
theorem claim9_witness :
    get_documents_from_query [1.5]
        { name := "source_abstract", numEntities := 0, fieldNames := [],
          embeddingDim := none } (fun _ _ => []) =
      .error ("The collection " ++ "source_abstract" ++
        " is empty. There are no documents to search for. Make sure the data has been loaded correctly into the collection.") :=
  claim9_empty_collection_precheck.1 [1.5]
    { name := "source_abstract", numEntities := 0, fieldNames := [],
      embeddingDim := none } (fun _ _ => []) rfl

/-- The candidate qualification test of the resolver: the name exists among
the listed collections and its entity count is non-zero. -/
def candidateUsable (store : MilvusStore) (name : String) : Bool :=
  store.collections.contains name && decide (0 < store.entityCount name)

/-- The candidate loop of `_get_collection` selects the first usable
candidate (reading its schema dimension) and otherwise fails carrying the
full candidate list, independently of the threaded
`_expected_dimension` accumulator. -/
lemma getCollectionLoop_spec (store : MilvusStore) (cands : List String) :
    ∀ (l : List String) (acc : Option Nat),
    (l.find? (candidateUsable store) = none →
      getCollectionLoop store cands l acc = .error (.noValidCollection cands)) ∧
    (∀ c, l.find? (candidateUsable store) = some c →
      ∀ d, store.embeddingDim c = some d →
      getCollectionLoop store cands l acc = .ok (c, some d)) := by
  intro l
  induction l with
  | nil => intro acc; exact ⟨fun _ => rfl, fun c hc => by simp at hc⟩
  | cons x rest ih =>
      intro acc
      by_cases hx : candidateUsable store x = true
      · have hcontains : store.collections.contains x = true := by
          have hx2 := hx
          unfold candidateUsable at hx2
          exact (Bool.and_eq_true _ _ ▸ hx2).1
        have hcount : 0 < store.entityCount x := by
          have hx2 := hx
          unfold candidateUsable at hx2
          exact of_decide_eq_true (Bool.and_eq_true _ _ ▸ hx2).2
        constructor
        · intro hnone
          rw [List.find?_cons_of_pos _ hx] at hnone
          exact absurd hnone (by simp)
        · intro c hc d hd
          rw [List.find?_cons_of_pos _ hx] at hc
          have hc : c = x := by simpa using hc.symm
          subst hc
          rw [getCollectionLoop, if_pos hcontains, hd]
          dsimp only
          rw [if_pos hcount]
      · have hstep : ∀ acc2 : Option Nat, getCollectionLoop store cands (x :: rest) acc2 =
            getCollectionLoop store cands rest
              (match store.collections.contains x with
               | true => (match store.embeddingDim x with
                          | some d => some d
                          | none => acc2)
               | false => acc2) := by
          intro acc2
          by_cases hcon : store.collections.contains x = true
          · have hcount : ¬0 < store.entityCount x := by
              intro hpos
              apply hx
              unfold candidateUsable
              rw [hcon, decide_eq_true hpos]
              rfl
            rw [getCollectionLoop, if_pos hcon, hcon]
            dsimp only
            rw [if_neg hcount]
          · rw [getCollectionLoop, if_neg hcon]
            rw [Bool.not_eq_true] at hcon
            rw [hcon]
        constructor
        · intro hnone
          rw [List.find?_cons_of_neg _ hx] at hnone
          rw [hstep]
          exact (ih _).1 hnone
        · intro c hc d hd
          rw [List.find?_cons_of_neg _ hx] at hc
          rw [hstep]
          exact (ih _).2 c hc d hd

/-- Claim C6: the collection resolver checks each candidate name in order —
the primary name followed by the configured alternatives, among which is the
namespace-qualified primary — for existence and non-zero entity count,
selects the first candidate satisfying both and reads its schema's declared
embedding dimension; when no candidate qualifies it fails with the
collection-unavailable error carrying every attempted name. -/
theorem claim6_collection_resolution :
    (∀ (primary : String) (alts : List String) (store : MilvusStore),
      ((primary :: alts).find? (candidateUsable store) = none →
        get_collection primary alts store =
          .error (.noValidCollection (primary :: alts))) ∧
      (∀ c, (primary :: alts).find? (candidateUsable store) = some c →
        ∀ d, store.embeddingDim c = some d →
        get_collection primary alts store = .ok (c, some d))) ∧
    MILVUS_DATABASE ++ "." ++ ABSTRACT_COLLECTION ∈ cleanAlternativeNames := by
  constructor
  · intro primary alts store
    exact getCollectionLoop_spec store (primary :: alts) (primary :: alts) none
  · decide

/-- Witness for C6, the spec's Scenario A: of the candidates
`["docs", "db.docs"]` only `"db.docs"` exists and has 10 entities, so the
resolver selects it and reads its schema dimension 3072. -/
theorem claim6_witness :
    (("docs" :: ["db.docs"]).find? (candidateUsable
      { collections := ["db.docs"],
        entityCount := fun n => if n = "db.docs" then 10 else 0,
        embeddingDim := fun n => if n = "db.docs" then some 3072 else none }) =
      some "db.docs") ∧
    get_collection "docs" ["db.docs"]
      { collections := ["db.docs"],
        entityCount := fun n => if n = "db.docs" then 10 else 0,
        embeddingDim := fun n => if n = "db.docs" then some 3072 else none } =
      .ok ("db.docs", some 3072) := by
  refine ⟨by decide, ?_⟩
  exact (claim6_collection_resolution.1 "docs" ["db.docs"] _).2 "db.docs" (by decide)
    3072 (by decide)

/-- Tool-call processing only ever appends to the message list and to the
collected contexts. -/
lemma processToolCalls_state (rag : String → RagResult) :
    ∀ (tcs : List ToolCallReq) (ms : List Msg) (cs : List CollectedContext),
    ∃ Δm Δc, processToolCalls rag tcs ms cs = ⟨ms ++ Δm, cs ++ Δc⟩ := by
  intro tcs
  induction tcs with
  | nil => intro ms cs; exact ⟨[], [], by simp [processToolCalls]⟩
  | cons tc rest ih =>
      intro ms cs
      rw [processToolCalls]
      split
      · rcases hq : tc.question? with _ | subq
        · simpa using ih ms cs
        · dsimp only
          split
          · exact ih ms cs
          · obtain ⟨Δm, Δc, hrec⟩ := ih
              (ms ++ [Msg.tool tc.id "get_relevant_information" (rag subq).context])
              (cs ++ [⟨subq, (rag subq).context, (rag subq).documents⟩])
            exact ⟨[Msg.tool tc.id "get_relevant_information" (rag subq).context] ++ Δm,
              [⟨subq, (rag subq).context, (rag subq).documents⟩] ++ Δc,
              by rw [hrec, List.append_assoc, List.append_assoc]⟩
      · exact ih ms cs

/-- `getLast?` of a cons with a non-empty tail. -/
lemma getLast?_cons_of_ne_nil {α : Type} (a : α) {l : List α} (h : l ≠ []) :
    (a :: l).getLast? = l.getLast? := by
  cases l with
  | nil => exact absurd rfl h
  | cons b t => exact List.getLast?_cons_cons

/-- The unconditional trace shape of the conversation loop: at least one and
at most `fuel + 1` completion calls are made, at most `fuel` of them offer
the tool, and every call except possibly the last offers the tool. -/
lemma chatToolsLoop_trace_bound (client : List Msg → Bool → Except String CompletionResp)
    (rag : String → RagResult) : ∀ (fuel : Nat) (ms : List Msg)
    (cs : List CollectedContext),
    (chatToolsLoop client rag fuel ms cs).2 ≠ [] ∧
    (chatToolsLoop client rag fuel ms cs).2.length ≤ fuel + 1 ∧
    (chatToolsLoop client rag fuel ms cs).2.countP (fun r => r.toolsOffered) ≤ fuel ∧
    (∀ rec ∈ (chatToolsLoop client rag fuel ms cs).2.dropLast,
      rec.toolsOffered = true) := by
  intro fuel
  induction fuel with
  | zero =>
      intro ms cs
      rw [chatToolsLoop]
      rcases client ms false with e | resp <;>
        exact ⟨by simp, by simp, by simp [List.countP_cons], by simp⟩
  | succ fuel ih =>
      intro ms cs
      rw [chatToolsLoop]
      rcases client ms true with e | resp
      · exact ⟨by simp, by simp, by simp [List.countP_cons], by simp⟩
      · dsimp only
        split
        · exact ⟨by simp, by simp, by simp [List.countP_cons], by simp⟩
        · obtain ⟨hne, hlen, hcount, hdrop⟩ :=
            ih (processToolCalls rag resp.toolCalls
                (ms ++ [Msg.assistant resp.content resp.toolCalls]) cs).messages
              (processToolCalls rag resp.toolCalls
                (ms ++ [Msg.assistant resp.content resp.toolCalls]) cs).contexts
          dsimp only
          refine ⟨by simp, ?_, ?_, ?_⟩
          · simp only [List.length_cons]
            omega
          · rw [List.countP_cons]
            simp
            omega
          · rw [List.dropLast_cons_of_ne_nil hne]
            intro rec hrec
            rcases List.mem_cons.mp hrec with hrec | hrec
            · rw [hrec]
            · exact hdrop rec hrec

/-- When the model keeps requesting tools on every turn and the completion
provider never fails, the loop issues exactly `fuel` tool-offering calls
followed by one final toolless call over the accumulated state, and answers
with that call's content and the collected contexts. -/
lemma chatToolsLoop_exhaustion (client : List Msg → Bool → Except String CompletionResp)
    (rag : String → RagResult)
    (H1 : ∀ ms, ∃ r, client ms true = .ok r ∧ r.toolCalls ≠ [])
    (H2 : ∀ ms, ∃ r, client ms false = .ok r) :
    ∀ (fuel : Nat) (ms : List Msg) (cs : List CollectedContext),
    ∃ rec4 rf,
      (chatToolsLoop client rag fuel ms cs).2.map (fun r => r.toolsOffered) =
        List.replicate fuel true ++ [false] ∧
      (chatToolsLoop client rag fuel ms cs).2.getLast? = some rec4 ∧
      rec4.toolsOffered = false ∧
      client rec4.messages false = .ok rf ∧
      (chatToolsLoop client rag fuel ms cs).1 =
        { content := rf.content, is_bot := true, error := false,
          contexts := some rec4.contextsAtCall } ∧
      ms <+: rec4.messages ∧ cs <+: rec4.contextsAtCall ∧
      (∀ rec ∈ (chatToolsLoop client rag fuel ms cs).2,
        rec.messages <+: rec4.messages ∧
        rec.contextsAtCall <+: rec4.contextsAtCall) := by
  intro fuel
  induction fuel with
  | zero =>
      intro ms cs
      obtain ⟨rf, hrf⟩ := H2 ms
      have hloop : chatToolsLoop client rag 0 ms cs =
          ({ content := rf.content, is_bot := true, error := false,
             contexts := some cs }, [⟨ms, false, cs⟩]) := by
        rw [chatToolsLoop, hrf]
      refine ⟨⟨ms, false, cs⟩, rf, ?_, ?_, rfl, hrf, ?_,
        List.prefix_refl ms, List.prefix_refl cs, ?_⟩
      · rw [hloop]; rfl
      · rw [hloop]; rfl
      · rw [hloop]
      · rw [hloop]
        intro rec hrec
        have hrec2 : rec = ⟨ms, false, cs⟩ := by simpa using hrec
        rw [hrec2]
        exact ⟨List.prefix_refl ms, List.prefix_refl cs⟩
  | succ fuel ih =>
      intro ms cs
      obtain ⟨r1, e1, t1⟩ := H1 ms
      have hne : r1.toolCalls.isEmpty = false := by
        rw [List.isEmpty_eq_false]
        exact t1
      obtain ⟨Δm, Δc, hst⟩ := processToolCalls_state rag r1.toolCalls
        (ms ++ [Msg.assistant r1.content r1.toolCalls]) cs
      obtain ⟨rec4, rf, hmap, hlast, hto, hcl, hans, hpm, hpc, hall⟩ :=
        ih (processToolCalls rag r1.toolCalls
            (ms ++ [Msg.assistant r1.content r1.toolCalls]) cs).messages
          (processToolCalls rag r1.toolCalls
            (ms ++ [Msg.assistant r1.content r1.toolCalls]) cs).contexts
      have hmsp : ms <+: rec4.messages := by
        refine List.IsPrefix.trans ?_ hpm
        rw [hst]
        dsimp only
        rw [List.append_assoc]
        exact List.prefix_append ms _
      have hcsp : cs <+: rec4.contextsAtCall := by
        refine List.IsPrefix.trans ?_ hpc
        rw [hst]
        dsimp only
        exact List.prefix_append cs Δc
      have htr : (chatToolsLoop client rag (fuel + 1) ms cs) =
          ((chatToolsLoop client rag fuel
              (processToolCalls rag r1.toolCalls
                (ms ++ [Msg.assistant r1.content r1.toolCalls]) cs).messages
              (processToolCalls rag r1.toolCalls
                (ms ++ [Msg.assistant r1.content r1.toolCalls]) cs).contexts).1,
            ⟨ms, true, cs⟩ ::
              (chatToolsLoop client rag fuel
                (processToolCalls rag r1.toolCalls
                  (ms ++ [Msg.assistant r1.content r1.toolCalls]) cs).messages
                (processToolCalls rag r1.toolCalls
                  (ms ++ [Msg.assistant r1.content r1.toolCalls]) cs).contexts).2) := by
        rw [chatToolsLoop, e1]
        dsimp only
        rw [if_neg (by simp [hne])]
      have hnext_ne : (chatToolsLoop client rag fuel
          (processToolCalls rag r1.toolCalls
            (ms ++ [Msg.assistant r1.content r1.toolCalls]) cs).messages
          (processToolCalls rag r1.toolCalls
            (ms ++ [Msg.assistant r1.content r1.toolCalls]) cs).contexts).2 ≠ [] := by
        intro hcon
        rw [hcon] at hmap
        simp at hmap
      refine ⟨rec4, rf, ?_, ?_, hto, hcl, ?_, hmsp, hcsp, ?_⟩
      · rw [htr]
        dsimp only
        rw [List.map_cons, hmap, List.replicate_succ]
        rfl
      · rw [htr]
        dsimp only
        rw [getLast?_cons_of_ne_nil _ hnext_ne]
        exact hlast
      · rw [htr]
        dsimp only
        exact hans
      · rw [htr]
        dsimp only
        intro rec hrec
        rcases List.mem_cons.mp hrec with hrec | hrec
        · rw [hrec]
          exact ⟨hmsp, hcsp⟩
        · exact hall rec hrec

/-- Claim C1: the orchestrator performs at most 3 tool round-trips (every
completion call except possibly the last offers the tool, and at most 3 do);
when all 3 rounds elapse with the model still requesting tools and the
provider never fails, exactly one further completion call is issued with no
tools offered, over the accumulated message history (every earlier call's
messages and contexts are prefixes of the final call's), and that call's
content is returned as the final answer with the collected contexts
attached. -/
theorem claim1_turn_bound_and_final_toolless_call (question : String)
    (chat_history : List ChatMessage)
    (client : List Msg → Bool → Except String CompletionResp)
    (rag : String → RagResult) :
    ((generate_answer_with_tools question chat_history client rag).2.length ≤ 4 ∧
     (generate_answer_with_tools question chat_history client rag).2.countP
       (fun r => r.toolsOffered) ≤ 3 ∧
     (∀ rec ∈ (generate_answer_with_tools question chat_history client rag).2.dropLast,
       rec.toolsOffered = true)) ∧
    ((∀ ms, ∃ r, client ms true = .ok r ∧ r.toolCalls ≠ []) →
     (∀ ms, ∃ r, client ms false = .ok r) →
     ∃ rec4 rf,
       (generate_answer_with_tools question chat_history client rag).2.map
         (fun r => r.toolsOffered) = [true, true, true, false] ∧
       (generate_answer_with_tools question chat_history client rag).2.getLast? =
         some rec4 ∧
       client rec4.messages false = .ok rf ∧
       (generate_answer_with_tools question chat_history client rag).1 =
         { content := rf.content, is_bot := true, error := false,
           contexts := some rec4.contextsAtCall } ∧
       ∀ rec ∈ (generate_answer_with_tools question chat_history client rag).2,
         rec.messages <+: rec4.messages ∧
         rec.contextsAtCall <+: rec4.contextsAtCall) := by
  constructor
  · obtain ⟨_, hlen, hcount, hdrop⟩ := chatToolsLoop_trace_bound client rag 3
      (initMessages question chat_history) []
    exact ⟨hlen, hcount, hdrop⟩
  · intro H1 H2
    obtain ⟨rec4, rf, hmap, hlast, _, hcl, hans, _, _, hall⟩ :=
      chatToolsLoop_exhaustion client rag H1 H2 3
        (initMessages question chat_history) []
    exact ⟨rec4, rf, hmap, hlast, hcl, hans, hall⟩

/-- A completion oracle for the C1 witness: every tool-offering call
requests one retrieval, the toolless call answers. -/
def alwaysToolClient : List Msg → Bool → Except String CompletionResp :=
  fun _ toolsOffered =>
    if toolsOffered then
      .ok { content := none,
            toolCalls := [⟨"call_1", "get_relevant_information", some "sub"⟩] }
    else .ok { content := some "final answer", toolCalls := [] }

/-- A retrieval stub for the orchestrator witnesses. -/
def stubRag : String → RagResult := fun q => { context := "ctx " ++ q, documents := [] }

/-- Witness for C1: with a model that requests tools on every turn, the
4-call pattern and the final toolless answer are realized concretely. -/
theorem claim1_witness :
    (∀ ms, ∃ r, alwaysToolClient ms true = .ok r ∧ r.toolCalls ≠ []) ∧
    (∀ ms, ∃ r, alwaysToolClient ms false = .ok r) ∧
    (∃ rec4 rf,
      (generate_answer_with_tools "q" [] alwaysToolClient stubRag).2.map
        (fun r => r.toolsOffered) = [true, true, true, false] ∧
      (generate_answer_with_tools "q" [] alwaysToolClient stubRag).2.getLast? =
        some rec4 ∧
      alwaysToolClient rec4.messages false = .ok rf ∧
      (generate_answer_with_tools "q" [] alwaysToolClient stubRag).1 =
        { content := rf.content, is_bot := true, error := false,
          contexts := some rec4.contextsAtCall } ∧
      ∀ rec ∈ (generate_answer_with_tools "q" [] alwaysToolClient stubRag).2,
        rec.messages <+: rec4.messages ∧
        rec.contextsAtCall <+: rec4.contextsAtCall) :=
  ⟨fun _ => ⟨_, rfl, by decide⟩, fun _ => ⟨_, rfl⟩,
   (claim1_turn_bound_and_final_toolless_call "q" [] alwaysToolClient stubRag).2
     (fun _ => ⟨_, rfl, by decide⟩) (fun _ => ⟨_, rfl⟩)⟩

/-- Claim C8, amended: a completion-provider failure mid-loop
terminates the orchestrator run immediately: the fixed apologetic answer is
returned at once, the failing call is the last completion call made (no
inline retry), and — in this chat_with_tools revision — the returned
dictionary carries no `contexts` key. -/
theorem claim8_completion_failure_terminates
    (client : List Msg → Bool → Except String CompletionResp)
    (rag : String → RagResult) (fuel : Nat) (ms : List Msg)
    (cs : List CollectedContext) (e : String)
    (h : client ms true = .error e) :
    chatToolsLoop client rag (fuel + 1) ms cs =
      ({ content := some ("An error occurred while processing your question: " ++ e),
         is_bot := true, error := true, contexts := none },
       [⟨ms, true, cs⟩]) := by
  rw [chatToolsLoop, h]

/-- Witness for C8's amended statement: a concretely failing completion
provider stops the loop at once with the apologetic answer. -/
theorem claim8_witness :
    chatToolsLoop (fun _ _ => .error "boom") stubRag 3 [Msg.user "x"] [] =
      ({ content := some ("An error occurred while processing your question: " ++ "boom"),
         is_bot := true, error := true, contexts := none },
       [⟨[Msg.user "x"], true, []⟩]) :=
  claim8_completion_failure_terminates (fun _ _ => .error "boom") stubRag 2
    [Msg.user "x"] [] "boom" rfl

/-- A completion oracle whose first turn requests the retrieval tool and
whose second turn answers without further tool calls. -/
def oneToolThenAnswerClient : List Msg → Bool → Except String CompletionResp :=
  fun ms _ =>
    if ms.length ≤ 2 then
      .ok { content := none,
            toolCalls := [⟨"call_1", "get_relevant_information", some "sub"⟩] }
    else .ok { content := some "answer", toolCalls := [] }

/-- The retrieval step when the legacy collection resolver raises
`"Milvus down"`: `get_rag_context` absorbs the failure into an error-message
context. -/
def failingResolverRag : String → RagResult := fun q =>
  get_rag_context q (fun _ => .ok [1.5]) (.error "Milvus down") (fun _ _ => [])

/-- Claim C8, counterexample: a resolution-provider failure occurring
mid-loop does *not* terminate the orchestrator run: the failure is absorbed
into the tool context, a second completion call is made, and the run returns
the model's normal answer with no error flag — contradicting the claim that
every provider failure (resolution, search, embedding, or completion)
terminates the run immediately with the fixed apologetic answer. -/
theorem claim8_counterexample :
    (generate_answer_with_tools "q" [] oneToolThenAnswerClient failingResolverRag).1.error
        = false ∧
    (generate_answer_with_tools "q" [] oneToolThenAnswerClient failingResolverRag).1.content
        = some "answer" ∧
    (generate_answer_with_tools "q" [] oneToolThenAnswerClient failingResolverRag).1.contexts
        = some [⟨"sub", "Could not retrieve relevant information due to: " ++ "Milvus down",
            []⟩] ∧
    (generate_answer_with_tools "q" [] oneToolThenAnswerClient failingResolverRag).2.length
        = 2 :=
  ⟨rfl, rfl, rfl, rfl⟩

end CevRag
